import Mathlib

/-!
Verification of the ANANTA limb-darkening analyser against its specification.

The repository's `src/` tree contains only the React client
(`App.jsx`, `ModelCards.jsx`, `Graphs.jsx`): the Analysis Engine described in
the specification (extractor, model library, fitter, comparator, assembler)
lives in an absent `backend/` directory.  Client-side data (the model-card
id table and the drift-scan reconstruction) is embedded directly from the
source; every engine definition below is modelled from the specification and
says so in its doc comment.
-/

/-! ## Client-side data, embedded from src -/

/-- Ids of the `MODELS` table in `src/frontend/src/components/ModelCards.jsx`
(lines 4-11), in source order.  The last entry is the compare selector; note
the fifth selectable id is `claret`, not `claret4`. -/
def clientModelIds : List String :=
  ["linear", "quadratic", "square-root", "logarithmic", "claret", "compare"]

/-- The `model_type` form field sent by `executeAnalysis` in
`src/frontend/src/App.jsx` (line 37): the selected card id is forwarded
verbatim. -/
def modelTypeField (selectedModel : String) : String := selectedModel

/-- Map over `mu_array` computing `r_norm` in
`src/frontend/src/components/Graphs.jsx` (line 14): `sqrt (1 - mu * mu)`. -/
noncomputable def r_norm (mu_array : List ℝ) : List ℝ :=
  mu_array.map fun mu => Real.sqrt (1 - mu * mu)

/-- Symmetric abscissa array `r_full` in `Graphs.jsx` (line 17): the reversed,
negated `r_norm` followed by `r_norm`. -/
noncomputable def r_full (mu_array : List ℝ) : List ℝ :=
  ((r_norm mu_array).reverse.map fun r => -r) ++ r_norm mu_array

/-- Symmetric ordinate array `i_full` in `Graphs.jsx` (line 18): the reversed
`i_norm_array` followed by `i_norm_array`. -/
def i_full (i_norm_array : List ℝ) : List ℝ :=
  i_norm_array.reverse ++ i_norm_array

/-! ## Error taxonomy (modelled from spec §7) -/

/-- Modelled from the spec: the error taxonomy of §7 of the absent backend
(`ExtractionError`, `DegreesOfFreedomError`, `InsufficientDataError`,
`CancelledError`). -/
inductive EngineError
  | extractionError
  | degreesOfFreedomError
  | insufficientDataError
  | cancelledError
deriving DecidableEq

/-- Modelled from the spec: a ProfileDataset (§3) is an ordered sequence of
`(mu, intensity)` samples, ascending in `mu`. -/
abbrev ProfileDataset := List (ℝ × ℝ)

/-! ## Model library (modelled from spec §4.2) -/

/-- Coefficient access: parameter `i` of the vector `θ`, defaulting to `0`. -/
def param (θ : List ℝ) (i : ℕ) : ℝ := θ.getD i 0

/-- Modelled from the spec: linear law of §4.2, `I(μ) = 1 − u₁(1−μ)` (absent
backend model library). -/
def linearIntensity (μ : ℝ) (θ : List ℝ) : ℝ :=
  1 - param θ 0 * (1 - μ)

/-- Modelled from the spec: quadratic law of §4.2,
`I(μ) = 1 − a₁(1−μ) − a₂(1−μ)²` (absent backend model library). -/
def quadraticIntensity (μ : ℝ) (θ : List ℝ) : ℝ :=
  1 - param θ 0 * (1 - μ) - param θ 1 * (1 - μ) ^ 2

/-- Modelled from the spec: square-root law of §4.2,
`I(μ) = 1 − c(1−μ) − d(1−√μ)` (absent backend model library). -/
noncomputable def squareRootIntensity (μ : ℝ) (θ : List ℝ) : ℝ :=
  1 - param θ 0 * (1 - μ) - param θ 1 * (1 - Real.sqrt μ)

/-- Modelled from the spec: the term `μ·ln(μ)` of the logarithmic law,
evaluated with its limit value `0` at `μ = 0` instead of raising a domain
error (§4.2 edge case). -/
noncomputable def mulnmu (μ : ℝ) : ℝ :=
  if μ = 0 then 0 else μ * Real.log μ

/-- Modelled from the spec: logarithmic law of §4.2,
`I(μ) = 1 − e(1−μ) − f·μ·ln(μ)` (absent backend model library). -/
noncomputable def logarithmicIntensity (μ : ℝ) (θ : List ℝ) : ℝ :=
  1 - param θ 0 * (1 - μ) - param θ 1 * mulnmu μ

/-- Modelled from the spec: Claret 4-parameter law of §4.2,
`I(μ) = 1 − Σ_{k=1..4} aₖ(1−μ^{k/2})` (absent backend model library). -/
noncomputable def claret4Intensity (μ : ℝ) (θ : List ℝ) : ℝ :=
  1 - (Finset.range 4).sum fun j => param θ j * (1 - μ ^ (((j : ℝ) + 1) / 2))

/-- Modelled from the spec: a ModelSpec (§3) names a model variant, its
parameter count, per-coefficient bounds, and its intensity function. -/
structure ModelSpec where
  id : String
  paramCount : ℕ
  lowerBound : ℝ
  upperBound : ℝ
  intensity : ℝ → List ℝ → ℝ

/-- Modelled from the spec: the linear ModelSpec (id `linear`, 1 parameter,
bounds `[-1, 2]`). -/
def linearSpec : ModelSpec :=
  ⟨"linear", 1, -1, 2, linearIntensity⟩

/-- Modelled from the spec: the quadratic ModelSpec (id `quadratic`,
2 parameters, bounds `[-1, 2]`). -/
def quadraticSpec : ModelSpec :=
  ⟨"quadratic", 2, -1, 2, quadraticIntensity⟩

/-- Modelled from the spec: the square-root ModelSpec (id `square-root`,
2 parameters, bounds `[-1, 2]`). -/
noncomputable def squareRootSpec : ModelSpec :=
  ⟨"square-root", 2, -1, 2, squareRootIntensity⟩

/-- Modelled from the spec: the logarithmic ModelSpec (id `logarithmic`,
2 parameters, bounds `[-1, 2]`). -/
noncomputable def logarithmicSpec : ModelSpec :=
  ⟨"logarithmic", 2, -1, 2, logarithmicIntensity⟩

/-- Modelled from the spec: the Claret ModelSpec (id `claret4`, 4 parameters,
bounds `[-1, 2]`). -/
noncomputable def claret4Spec : ModelSpec :=
  ⟨"claret4", 4, -1, 2, claret4Intensity⟩

/-- Modelled from the spec: the model library of §4.2, in table order. -/
noncomputable def modelLibrary : List ModelSpec :=
  [linearSpec, quadraticSpec, squareRootSpec, logarithmicSpec, claret4Spec]

/-- The five lowercase model ids of spec §4.2, in table order. -/
def spec42Ids : List String :=
  ["linear", "quadratic", "square-root", "logarithmic", "claret4"]

/-! ## Profile extractor (modelled from spec §4.1) -/

/-- Modelled from the spec: extraction configuration (§4.1 / §9 open
question) — bucket count, edge-threshold fraction and minimum radius are
configuration, not hardcoded. -/
structure ExtractConfig where
  numBuckets : ℕ
  edgeFrac : ℝ
  minRadius : ℝ

/-- Peak intensity of the scan line (0 for an empty line). -/
def peakVal (g : List ℝ) : ℝ := g.foldr max 0

/-- Brightness centroid of the scan line: intensity-weighted mean pixel
position. -/
noncomputable def centroid (g : List ℝ) : ℝ :=
  (g.enum.map fun p => (p.1 : ℝ) * p.2).sum / g.sum

/-- Modelled from the spec: stage 1 of §4.1 (absent backend extractor) —
centroid and half-width-at-edge-threshold radius estimation.  Fails with
`ExtractionError` when no clear peak exists (all-dark: peak ≤ 0; uniform:
no pixel drops below the edge threshold) or when the estimated radius is
below the minimum-pixel threshold. -/
noncomputable def estimateGeometry (cfg : ExtractConfig) (g : List ℝ) :
    Except EngineError (ℝ × ℝ) :=
  let peak := peakVal g
  let radius := ((g.filter fun v => decide (cfg.edgeFrac * peak ≤ v)).length : ℝ) / 2
  if peak ≤ 0 then .error .extractionError
  else if g.all fun v => decide (cfg.edgeFrac * peak ≤ v) then .error .extractionError
  else if radius < cfg.minRadius then .error .extractionError
  else .ok (centroid g, radius)

/-- Modelled from the spec: the flat-disk projection of §4.1 step 2,
`mu = sqrt(1 - r²)` (absent backend extractor). -/
noncomputable def muOfR (r : ℝ) : ℝ := Real.sqrt (1 - r ^ 2)

/-- Modelled from the spec: per-pixel `(μ, intensity)` samples of §4.1
step 2 — normalized distance from center clipped to `[0,1]`, projected to μ
(absent backend extractor). -/
noncomputable def rawSamples (g : List ℝ) (center radius : ℝ) : List (ℝ × ℝ) :=
  g.enum.map fun p => (muOfR (min (|(p.1 : ℝ) - center| / radius) 1), p.2)

/-- Modelled from the spec: fixed-width μ-bucket index over `[0,1]` for `B`
buckets, the top bucket closed (absent backend extractor). -/
noncomputable def bucketIndex (B : ℕ) (μ : ℝ) : ℕ :=
  min (Int.toNat ⌊μ * B⌋) (B - 1)

/-- Intensities of the samples falling into bucket `k`. -/
noncomputable def bucketVals (B : ℕ) (samples : List (ℝ × ℝ)) (k : ℕ) : List ℝ :=
  (samples.filter fun s => decide (bucketIndex B s.1 = k)).map Prod.snd

/-- Representative μ of bucket `k` (the bucket center). -/
noncomputable def repMu (B k : ℕ) : ℝ := ((k : ℝ) + 1 / 2) / (B : ℝ)

/-- Modelled from the spec: radial binning of §4.1 step 2 (absent backend
extractor) — average intensity per nonempty μ-bucket, ascending in μ,
empty buckets dropped. -/
noncomputable def binProfile (B : ℕ) (samples : List (ℝ × ℝ)) : List (ℝ × ℝ) :=
  ((List.range B).filter fun k => !(bucketVals B samples k).isEmpty).map
    fun k => (repMu B k, (bucketVals B samples k).sum / ((bucketVals B samples k).length : ℝ))

/-- Intensity of the bucket nearest μ = 1: since binned profiles are
ascending in μ, this is the last bucket (0 when there is none). -/
def centerIntensity (binned : List (ℝ × ℝ)) : ℝ :=
  (binned.getLast?.map Prod.snd).getD 0

/-- Modelled from the spec: normalization step 3 of §4.1 (absent backend
extractor) — every binned intensity is divided by the intensity at the
bucket nearest μ = 1; fails with `ExtractionError` when that center-bucket
intensity is ≤ 0. -/
noncomputable def normalizeProfile (binned : List (ℝ × ℝ)) :
    Except EngineError ProfileDataset :=
  let c := centerIntensity binned
  if c ≤ 0 then .error .extractionError
  else .ok (binned.map fun s => (s.1, s.2 / c))

/-- Stages 1 and 2 of the extractor: geometry estimation followed by radial
binning. -/
noncomputable def preNormalize (cfg : ExtractConfig) (g : List ℝ) :
    Except EngineError (List (ℝ × ℝ)) :=
  (estimateGeometry cfg g).map fun cr => binProfile cfg.numBuckets (rawSamples g cr.1 cr.2)

/-- Modelled from the spec: the Profile Extractor of §4.1 (absent backend) —
geometry estimation, radial binning, then normalization. -/
noncomputable def extractProfile (cfg : ExtractConfig) (g : List ℝ) :
    Except EngineError ProfileDataset :=
  (preNormalize cfg g).bind normalizeProfile

/-! ## Curve fitter (modelled from spec §4.3) -/

/-- Modelled from the spec: a FitResult (§3) — model id, fitted parameters,
fitted curve aligned to the input μ grid, residuals, reduced chi-square and
convergence flag.  The assembler of §6 exposes `fitted_curve` as
`fitted_curve_y`. -/
structure FitResult where
  model_type : String
  parameters : List ℝ
  fitted_curve : List ℝ
  residuals : List ℝ
  chi2_reduced : ℝ
  converged : Bool

/-- Modelled from the spec: the fitter's initial guess (§4.3) — the midpoint
of each parameter's bounds. -/
noncomputable def initialGuess (m : ModelSpec) : List ℝ :=
  List.replicate m.paramCount ((m.lowerBound + m.upperBound) / 2)

/-- Modelled from the spec: the parameter vector returned by the bounded
nonlinear least-squares search of §4.3.  The absent backend's iterative
refinement is observable only through the spec's requirements that it be
deterministic with no randomized restarts and start from the bounds-midpoint
initial guess; no claim below depends on the optimum itself, so the search
is modelled as the deterministic function returning its initial guess. -/
noncomputable def optimizeParams (m : ModelSpec) (_ds : ProfileDataset) : List ℝ :=
  initialGuess m

/-- Modelled from the spec: assembly of a FitResult (§4.3) — fitted curve is
the model evaluated on the dataset's μ grid at the fitted parameters,
residuals are observed minus fitted, and
`chi2_reduced = Σ(residual²) / (N − p)`. -/
noncomputable def mkFitResult (m : ModelSpec) (ds : ProfileDataset) : FitResult :=
  let θ := optimizeParams m ds
  let fitted := ds.map fun s => m.intensity s.1 θ
  let res := List.zipWith (fun iv fv => iv - fv) (ds.map Prod.snd) fitted
  { model_type := m.id
    parameters := θ
    fitted_curve := fitted
    residuals := res
    chi2_reduced := (res.map fun x => x ^ 2).sum / ((ds.length : ℝ) - (m.paramCount : ℝ))
    converged := true }

/-- Modelled from the spec: the Curve Fitter of §4.3 (absent backend) —
fails with `DegreesOfFreedomError` when the sample count is at most the
parameter count, and otherwise reports the fit result. -/
noncomputable def fitModel (m : ModelSpec) (ds : ProfileDataset) :
    Except EngineError FitResult :=
  if ds.length ≤ m.paramCount then .error .degreesOfFreedomError
  else .ok (mkFitResult m ds)

/-! ## Comparator and assembler (modelled from spec §4.4 and §6) -/

/-- Ranking order of §3: ascending `chi2_reduced`, ties broken by lexical
order of the model id. -/
def fitOrder (a b : FitResult) : Prop :=
  a.chi2_reduced < b.chi2_reduced ∨
    (a.chi2_reduced = b.chi2_reduced ∧ a.model_type ≤ b.model_type)

/-- Boolean form of `fitOrder`, used as the sort comparator. -/
noncomputable def fitOrderB (a b : FitResult) : Bool :=
  @decide (fitOrder a b) (Classical.propDecidable _)

/-- Modelled from the spec: the Comparator/Ranker of §4.4 (absent backend) —
fits every model of the library over the same dataset, drops the fits that
failed, sorts the survivors by `fitOrder`, and fails with
`InsufficientDataError` when no model could be fit at all. -/
noncomputable def compareModels (ds : ProfileDataset) :
    Except EngineError (List FitResult) :=
  let oks := modelLibrary.filterMap fun m => (fitModel m ds).toOption
  if oks.isEmpty then .error .insufficientDataError
  else .ok (oks.mergeSort fitOrderB)

/-- Ranked results of a comparator outcome: the ranked list on success, the
empty list on failure. -/
def rankedResults : Except EngineError (List FitResult) → List FitResult
  | .error _ => []
  | .ok rs => rs

/-- Modelled from the spec: the outbound response contract of §6 —
`mu_array`, the aligned `i_norm_array`, and the ranked results. -/
structure AnalysisResponse where
  mu_array : List ℝ
  i_norm_array : List ℝ
  results : List FitResult

/-- Modelled from the spec: the Result Assembler (§6, absent backend) —
packages the extracted dataset and the fit results into the response
contract. -/
def mkResponse (ds : ProfileDataset) (rs : List FitResult) : AnalysisResponse :=
  ⟨ds.map Prod.fst, ds.map Prod.snd, rs⟩

/-- Modelled from the spec: a request's model selection — one model of the
library, or the compare selector. -/
inductive ModelSelection
  | single (m : ModelSpec)
  | compare

/-- Modelled from the spec: the whole analysis pipeline of §2 (absent
backend) — extraction, then one fit or a full comparison, then assembly. -/
noncomputable def analyze (cfg : ExtractConfig) (g : List ℝ) (sel : ModelSelection) :
    Except EngineError AnalysisResponse :=
  (extractProfile cfg g).bind fun ds =>
    match sel with
    | .single m => (fitModel m ds).map fun r => mkResponse ds [r]
    | .compare => (compareModels ds).map fun rs => mkResponse ds rs

/-! ## Invariant predicates used by the claim statements -/

/-- Example one-sample profile: too small for every model of the library. -/
noncomputable def exampleDs1 : ProfileDataset := [(1, 1)]

/-- Example three-sample profile (the degenerate case of spec §8). -/
noncomputable def exampleDs3 : ProfileDataset := [(0, 1), (1 / 2, 1), (1, 1)]

/-- Example five-sample profile: large enough for every model. -/
noncomputable def exampleDs5 : ProfileDataset :=
  [(0, 1), (1 / 4, 1), (1 / 2, 1), (3 / 4, 1), (1, 1)]

/-- Example extraction configuration (the spec's defaults: 200 buckets, 50%
edge threshold). -/
noncomputable def exampleCfg : ExtractConfig := ⟨200, 1 / 2, 2⟩

/-- Example scan line. -/
noncomputable def exampleGrid : List ℝ := [0, 1, 0]

/-- Contract invariant of §6 on a pipeline outcome: on success, `mu_array`
and `i_norm_array` have equal length, `mu_array` is strictly ascending and
deduplicated, and each result's curve arrays have exactly that length. -/
def responseArraysAligned : Except EngineError AnalysisResponse → Prop
  | .error _ => True
  | .ok resp =>
    resp.mu_array.length = resp.i_norm_array.length ∧
    resp.mu_array.Sorted (· < ·) ∧
    resp.mu_array.Nodup ∧
    resp.results.Forall fun r =>
      r.fitted_curve.length = resp.mu_array.length ∧
      r.residuals.length = resp.mu_array.length

/-- Residual-identity invariant on a fit outcome: on success the residuals
are observed minus fitted, pointwise and within the spec's 1e-9 tolerance. -/
def residualIdentity (ds : ProfileDataset) : Except EngineError FitResult → Prop
  | .error _ => True
  | .ok r =>
    r.residuals = List.zipWith (fun iv fv => iv - fv) (ds.map Prod.snd) r.fitted_curve ∧
    ∀ i, i < r.residuals.length →
      |r.residuals.getD i 0 - ((ds.map Prod.snd).getD i 0 - r.fitted_curve.getD i 0)| < 1e-9

/-- Reduced chi-square invariant on a fit outcome: on success,
`chi2_reduced = Σ(residual²) / (N − p)`. -/
def chi2Formula (m : ModelSpec) (ds : ProfileDataset) :
    Except EngineError FitResult → Prop
  | .error _ => True
  | .ok r =>
    r.chi2_reduced = (r.residuals.map fun x => x ^ 2).sum /
      ((ds.length : ℝ) - (m.paramCount : ℝ))

/-- Single-model response invariant: on success the results array has
length exactly 1. -/
def singleResultCount : Except EngineError AnalysisResponse → Prop
  | .error _ => True
  | .ok resp => resp.results.length = 1

/-- Normalization invariant on an extraction outcome: on success the dataset
is nonempty and the bucket nearest μ = 1 carries value 1 within 1e-6. -/
def centerNormalized : Except EngineError ProfileDataset → Prop
  | .error _ => True
  | .ok ds => ds ≠ [] ∧ |centerIntensity ds - 1| ≤ 1e-6

/-- Outbound-id invariant on a pipeline outcome: on success every result's
`model_type` is one of the five §4.2 ids. -/
def resultsModelTypesValid : Except EngineError AnalysisResponse → Prop
  | .error _ => True
  | .ok resp => resp.results.Forall fun r => r.model_type ∈ spec42Ids

/-! ## Helper lemmas -/

theorem except_toOption_eq_some {ε α : Type} (x : Except ε α) (a : α) :
    x.toOption = some a ↔ x = .ok a := by
  cases x <;> simp [Except.toOption]

theorem getD_zipWith_sub (as bs : List ℝ) (i : ℕ)
    (ha : i < as.length) (hb : i < bs.length) :
    (List.zipWith (fun iv fv => iv - fv) as bs).getD i 0 = as.getD i 0 - bs.getD i 0 := by
  induction as generalizing bs i with
  | nil => simp at ha
  | cons a as ih =>
    cases bs with
    | nil => simp at hb
    | cons b bs =>
      cases i with
      | zero => simp
      | succ n => simpa using ih bs n (by simpa using ha) (by simpa using hb)

theorem getD_reverse_of_lt (l : List ℝ) (i : ℕ) (h : i < l.length) :
    l.reverse.getD i 0 = l.getD (l.length - 1 - i) 0 := by
  rw [List.getD_eq_getElem l 0 (by omega), List.getD_eq_getElem l.reverse 0 (by simpa)]
  rw [List.getElem_reverse]

theorem getD_map_neg (l : List ℝ) (i : ℕ) :
    (l.map fun r => -r).getD i 0 = -(l.getD i 0) := by
  by_cases h : i < l.length
  · rw [List.getD_eq_getElem _ 0 (by simpa), List.getD_eq_getElem l 0 h, List.getElem_map]
  · rw [List.getD_eq_default _ 0 (by simpa using h), List.getD_eq_default l 0 (by omega)]
    simp

theorem fitModel_of_lt (m : ModelSpec) (ds : ProfileDataset)
    (h : m.paramCount < ds.length) : fitModel m ds = .ok (mkFitResult m ds) := by
  simp [fitModel, Nat.not_le.mpr h]

theorem fitModel_of_le (m : ModelSpec) (ds : ProfileDataset)
    (h : ds.length ≤ m.paramCount) :
    fitModel m ds = .error .degreesOfFreedomError := by
  simp [fitModel, h]

theorem mkFitResult_fitted_length (m : ModelSpec) (ds : ProfileDataset) :
    (mkFitResult m ds).fitted_curve.length = ds.length := by
  simp [mkFitResult]

theorem mkFitResult_residuals_length (m : ModelSpec) (ds : ProfileDataset) :
    (mkFitResult m ds).residuals.length = ds.length := by
  simp [mkFitResult]

theorem filterMap_fit (l : List ModelSpec) (ds : ProfileDataset) :
    (l.filterMap fun m => (fitModel m ds).toOption) =
      (l.filter fun m => decide (m.paramCount < ds.length)).map
        fun m => mkFitResult m ds := by
  induction l with
  | nil => rfl
  | cons m l ih =>
    rw [List.filterMap_cons, ih]
    by_cases h : m.paramCount < ds.length
    · rw [fitModel_of_lt m ds h]
      simp [Except.toOption, List.filter_cons, h]
    · rw [fitModel_of_le m ds (Nat.not_lt.mp h)]
      simp [Except.toOption, List.filter_cons, h]

theorem repMu_strictMono (B a b : ℕ) (hb : b < B) (hab : a < b) :
    repMu B a < repMu B b := by
  have hB : (0 : ℝ) < (B : ℝ) := by
    have : 0 < B := Nat.lt_of_le_of_lt (Nat.zero_le b) hb
    exact_mod_cast this
  unfold repMu
  rw [div_lt_div_iff_of_pos_right hB]
  have : (a : ℝ) < (b : ℝ) := by exact_mod_cast hab
  linarith

theorem binProfile_mu_sorted (B : ℕ) (samples : List (ℝ × ℝ)) :
    ((binProfile B samples).map Prod.fst).Sorted (· < ·) := by
  unfold binProfile
  rw [List.map_map]
  have h1 : (List.range B).Pairwise (· < ·) := List.pairwise_lt_range B
  have h2 : ((List.range B).filter fun k => !(bucketVals B samples k).isEmpty).Pairwise
      (· < ·) := h1.sublist (List.filter_sublist _)
  have h3 : ((List.range B).filter fun k => !(bucketVals B samples k).isEmpty).Pairwise
      (fun a b => repMu B a < repMu B b) := by
    refine List.Pairwise.imp_of_mem ?_ h2
    intro a b _ hbmem hab
    have hbB : b < B := List.mem_range.mp (List.mem_of_mem_filter hbmem)
    exact repMu_strictMono B a b hbB hab
  have h4 := List.pairwise_map.mpr h3
  simpa [Function.comp] using h4

theorem normalizeProfile_ok_shape (binned : List (ℝ × ℝ)) (ds : ProfileDataset)
    (h : normalizeProfile binned = .ok ds) :
    ds = binned.map fun s => (s.1, s.2 / centerIntensity binned) := by
  simp only [normalizeProfile] at h
  split_ifs at h with hc
  exact (Except.ok.inj h).symm

theorem extractProfile_ok_shape (cfg : ExtractConfig) (g : List ℝ) (ds : ProfileDataset)
    (h : extractProfile cfg g = .ok ds) :
    ∃ binned, normalizeProfile binned = .ok ds ∧
      ds.map Prod.fst = binned.map Prod.fst ∧
      (binned.map Prod.fst).Sorted (· < ·) := by
  unfold extractProfile preNormalize at h
  cases hgeo : estimateGeometry cfg g with
  | error e => rw [hgeo] at h; cases h
  | ok cr =>
    rw [hgeo] at h
    refine ⟨binProfile cfg.numBuckets (rawSamples g cr.1 cr.2), h, ?_, ?_⟩
    · rw [normalizeProfile_ok_shape _ _ h, List.map_map]
      rfl
    · exact binProfile_mu_sorted cfg.numBuckets (rawSamples g cr.1 cr.2)

theorem mkResponse_results (ds : ProfileDataset) (rs : List FitResult) :
    (mkResponse ds rs).results = rs := rfl

theorem mkResponse_mu (ds : ProfileDataset) (rs : List FitResult) :
    (mkResponse ds rs).mu_array = ds.map Prod.fst := rfl

theorem compareModels_mem (ds : ProfileDataset) (r : FitResult) :
    r ∈ rankedResults (compareModels ds) ↔
      ∃ m ∈ modelLibrary, fitModel m ds = .ok r := by
  unfold compareModels
  set oks := modelLibrary.filterMap fun m => (fitModel m ds).toOption with hoks
  by_cases he : oks.isEmpty
  · simp only [he, if_true, rankedResults]
    have hnil : oks = [] := List.isEmpty_iff.mp he
    constructor
    · intro hcon; cases hcon
    · rintro ⟨m, hm, hfit⟩
      have : (fitModel m ds).toOption = some r := by rw [hfit]; rfl
      have hmem : r ∈ oks := by
        rw [hoks]
        exact List.mem_filterMap.mpr ⟨m, hm, this⟩
      rw [hnil] at hmem
      cases hmem
  · rw [if_neg he]
    simp only [rankedResults]
    rw [List.mem_mergeSort, hoks, List.mem_filterMap]
    constructor
    · rintro ⟨m, hm, hsome⟩
      exact ⟨m, hm, (except_toOption_eq_some _ _).mp hsome⟩
    · rintro ⟨m, hm, hfit⟩
      exact ⟨m, hm, (except_toOption_eq_some _ _).mpr hfit⟩

theorem fitModel_error_eq (m : ModelSpec) (ds : ProfileDataset) (e : EngineError)
    (h : fitModel m ds = .error e) :
    e = EngineError.degreesOfFreedomError ∧ ds.length ≤ m.paramCount := by
  unfold fitModel at h
  split_ifs at h with hle
  exact ⟨(Except.error.inj h).symm, hle⟩

/-! ## Claim theorems -/

/-- C8: the logarithmic model's intensity function is total on `[0,1]`: the
term `μ·ln(μ)` is evaluated as `0` at `μ = 0` — which is its genuine limit
value — and agrees with `μ·ln(μ)` elsewhere, so `I(0) = 1 − e` for the
logarithmic model with parameters `[e, f]`. -/
theorem logarithmic_total_at_zero :
    mulnmu 0 = 0 ∧
    Filter.Tendsto (fun μ : ℝ => μ * Real.log μ) (nhds 0) (nhds (mulnmu 0)) ∧
    (∀ μ : ℝ, μ ≠ 0 → mulnmu μ = μ * Real.log μ) ∧
    (∀ e f : ℝ, logarithmicIntensity 0 [e, f] = 1 - e) := by
  refine ⟨by simp [mulnmu], ?_, ?_, ?_⟩
  · have h := Real.continuous_mul_log.tendsto 0
    simpa [mulnmu] using h
  · intro μ hμ
    simp [mulnmu, hμ]
  · intro e f
    simp [logarithmicIntensity, mulnmu, param]

/-- Witness for C8's only hypothesis: the guard does not disturb the term
away from zero. -/
theorem logarithmic_total_at_zero_witness : mulnmu 2 = 2 * Real.log 2 :=
  logarithmic_total_at_zero.2.2.1 2 (by norm_num)

/-- C9: the extraction-plus-fit pipeline is modelled as a pure function of
the pixel grid, the configuration and the model selection, so two runs on
identical inputs produce identical buckets, parameters and chi2_reduced. -/
theorem pipeline_deterministic (cfg : ExtractConfig) (g : List ℝ)
    (sel : ModelSelection) (out1 out2 : Except EngineError AnalysisResponse)
    (h1 : analyze cfg g sel = out1) (h2 : analyze cfg g sel = out2) :
    out1 = out2 :=
  h1.symm.trans h2

/-- Witness for C9 at a concrete configuration, grid and selection. -/
theorem pipeline_deterministic_witness :
    analyze exampleCfg exampleGrid ModelSelection.compare =
      analyze exampleCfg exampleGrid ModelSelection.compare :=
  pipeline_deterministic exampleCfg exampleGrid ModelSelection.compare _ _ rfl rfl

/-- C6: the Curve Fitter fails with `DegreesOfFreedomError` exactly when the
sample count is at most the model's parameter count; otherwise it reports
`chi2_reduced = Σ(residual²) / (N − p)`.  In particular a 3-sample profile
fit against the 4-parameter Claret model yields `DegreesOfFreedomError`. -/
theorem dof_error_iff_chi2 :
    (∀ (m : ModelSpec) (ds : ProfileDataset),
      (fitModel m ds = .error EngineError.degreesOfFreedomError ↔
        ds.length ≤ m.paramCount) ∧
      chi2Formula m ds (fitModel m ds)) ∧
    fitModel claret4Spec exampleDs3 = .error EngineError.degreesOfFreedomError := by
  constructor
  · intro m ds
    constructor
    · constructor
      · intro h
        by_contra hn
        rw [fitModel_of_lt m ds (Nat.not_le.mp hn)] at h
        cases h
      · intro h
        exact fitModel_of_le m ds h
    · unfold fitModel
      split_ifs with h
      · simp [chi2Formula]
      · simp [chi2Formula, mkFitResult]
  · apply fitModel_of_le
    simp [exampleDs3, claret4Spec]

/-- C3: for every fit outcome, residuals are observed minus fitted —
pointwise equal, hence within the spec's 1e-9 tolerance. -/
theorem residual_identity_holds (m : ModelSpec) (ds : ProfileDataset) :
    residualIdentity ds (fitModel m ds) := by
  unfold fitModel
  split_ifs with h
  · simp [residualIdentity]
  · simp only [residualIdentity]
    refine ⟨rfl, ?_⟩
    intro i hi
    have hres : (mkFitResult m ds).residuals =
        List.zipWith (fun iv fv => iv - fv) (ds.map Prod.snd)
          (mkFitResult m ds).fitted_curve := rfl
    rw [hres, getD_zipWith_sub]
    · simp only [sub_self, abs_zero]
      norm_num
    · rw [hres] at hi
      simp only [List.length_zipWith] at hi
      omega
    · rw [hres] at hi
      simp only [List.length_zipWith] at hi
      omega

/-- C5: after extraction's normalization the bucket nearest μ = 1 carries
value 1 (well within the 1e-6 tolerance); normalization fails with
`ExtractionError` whenever the center-bucket intensity is ≤ 0, in which case
no ProfileDataset is produced; and the extractor's last step is exactly this
normalization. -/
theorem normalization_center_unit :
    (∀ binned : List (ℝ × ℝ), centerIntensity binned ≤ 0 →
      normalizeProfile binned = .error EngineError.extractionError) ∧
    (∀ binned : List (ℝ × ℝ), centerNormalized (normalizeProfile binned)) ∧
    (∀ (cfg : ExtractConfig) (g : List ℝ),
      extractProfile cfg g = (preNormalize cfg g).bind normalizeProfile) := by
  refine ⟨?_, ?_, fun cfg g => rfl⟩
  · intro binned h
    simp [normalizeProfile, h]
  · intro binned
    by_cases hc : centerIntensity binned ≤ 0
    · simp [normalizeProfile, hc, centerNormalized]
    · have hok : normalizeProfile binned =
          .ok (binned.map fun s => (s.1, s.2 / centerIntensity binned)) := by
        simp [normalizeProfile, hc]
      rw [hok]
      simp only [centerNormalized]
      push_neg at hc
      have hne : binned ≠ [] := by
        intro he
        rw [he] at hc
        simp [centerIntensity] at hc
      cases hlast : binned.getLast? with
      | none =>
        exact absurd (List.getLast?_eq_none_iff.mp hlast) hne
      | some x =>
        have hcx : centerIntensity binned = x.2 := by
          simp [centerIntensity, hlast]
        have hmap : centerIntensity (binned.map fun s =>
            (s.1, s.2 / centerIntensity binned)) = x.2 / centerIntensity binned := by
          simp [centerIntensity, List.getLast?_map, hlast]
        constructor
        · simpa using hne
        · rw [hmap, hcx, div_self (ne_of_gt (hcx ▸ hc))]
          norm_num

/-- Witness for C5: a binned profile whose center bucket is nonpositive is
rejected by normalization. -/
theorem normalization_center_unit_witness :
    centerIntensity [((3 : ℝ) / 4, -1)] ≤ 0 ∧
      normalizeProfile [((3 : ℝ) / 4, -1)] = .error EngineError.extractionError := by
  have h : centerIntensity [((3 : ℝ) / 4, -1)] ≤ 0 := by
    norm_num [centerIntensity]
  exact ⟨h, normalization_center_unit.1 _ h⟩

/-- C7: during a compare request every model whose fit fails (which can only
be with `DegreesOfFreedomError`) is excluded from the ranking without
aborting the comparison — the ranked results are exactly the successful
fits — and the comparator fails with `InsufficientDataError` exactly when
every model of the library fails this way. -/
theorem compare_excludes_dof (ds : ProfileDataset) :
    (compareModels ds = .error EngineError.insufficientDataError ↔
      ∀ m ∈ modelLibrary, fitModel m ds = .error EngineError.degreesOfFreedomError) ∧
    (∀ r : FitResult, r ∈ rankedResults (compareModels ds) ↔
      ∃ m ∈ modelLibrary, fitModel m ds = .ok r) := by
  refine ⟨?_, fun r => compareModels_mem ds r⟩
  simp only [compareModels]
  by_cases he : (modelLibrary.filterMap fun m => (fitModel m ds).toOption).isEmpty
  · rw [if_pos he]
    constructor
    · intro _ m hm
      have hnil := List.isEmpty_iff.mp he
      have hnone := List.filterMap_eq_nil_iff.mp hnil m hm
      cases hfd : fitModel m ds with
      | ok r =>
        rw [hfd] at hnone
        simp [Except.toOption] at hnone
      | error e =>
        rw [(fitModel_error_eq m ds e hfd).1]
    · intro _
      rfl
  · rw [if_neg he]
    constructor
    · intro hcon
      cases hcon
    · intro hall
      exfalso
      apply he
      rw [List.isEmpty_iff, List.filterMap_eq_nil_iff]
      intro m hm
      rw [hall m hm]
      rfl

/-- Witness for C7: on a one-sample profile every model fails the
degrees-of-freedom check, so the comparison fails with
`InsufficientDataError`. -/
theorem compare_excludes_dof_witness :
    compareModels exampleDs1 = .error EngineError.insufficientDataError := by
  refine (compare_excludes_dof exampleDs1).1.mpr ?_
  intro m hm
  apply fitModel_of_le
  have h1 : exampleDs1.length = 1 := by simp [exampleDs1]
  rw [h1]
  simp only [modelLibrary, List.mem_cons, List.not_mem_nil, or_false] at hm
  rcases hm with rfl | rfl | rfl | rfl | rfl
  · simp [linearSpec]
  · simp [quadraticSpec]
  · simp [squareRootSpec]
  · simp [logarithmicSpec]
  · simp [claret4Spec]

theorem fitModel_ok_eq (m : ModelSpec) (ds : ProfileDataset) (r : FitResult)
    (h : fitModel m ds = .ok r) : r = mkFitResult m ds := by
  unfold fitModel at h
  split_ifs at h
  exact (Except.ok.inj h).symm

theorem responseArraysAligned_ok (ds : ProfileDataset) (rs : List FitResult)
    (hlen : ∀ r ∈ rs, r.fitted_curve.length = ds.length ∧
      r.residuals.length = ds.length)
    (hsorted : (ds.map Prod.fst).Sorted (· < ·)) :
    responseArraysAligned (.ok (mkResponse ds rs)) := by
  simp only [responseArraysAligned, mkResponse]
  refine ⟨by simp, hsorted, hsorted.nodup, ?_⟩
  rw [List.forall_iff_forall_mem]
  intro r hr
  simpa using hlen r hr

/-- C2: for every analysis outcome, on success `mu_array` and `i_norm_array`
have equal length, `mu_array` is strictly ascending and deduplicated, and
every result's `fitted_curve`/`residuals` arrays have exactly that length. -/
theorem response_arrays_aligned (cfg : ExtractConfig) (g : List ℝ)
    (sel : ModelSelection) : responseArraysAligned (analyze cfg g sel) := by
  unfold analyze
  cases hex : extractProfile cfg g with
  | error e => exact trivial
  | ok ds =>
    obtain ⟨binned, hnorm, hmapeq, hsortb⟩ := extractProfile_ok_shape cfg g ds hex
    have hds_sorted : (ds.map Prod.fst).Sorted (· < ·) := hmapeq ▸ hsortb
    cases sel with
    | single m =>
      show responseArraysAligned (Except.map (fun r => mkResponse ds [r]) (fitModel m ds))
      cases hfit : fitModel m ds with
      | error e => exact trivial
      | ok r =>
        have hr := fitModel_ok_eq m ds r hfit
        refine responseArraysAligned_ok ds [r] ?_ hds_sorted
        intro r2 hr2
        rw [List.mem_singleton.mp hr2, hr]
        exact ⟨mkFitResult_fitted_length m ds, mkFitResult_residuals_length m ds⟩
    | compare =>
      show responseArraysAligned (Except.map (fun rs => mkResponse ds rs) (compareModels ds))
      cases hcmp : compareModels ds with
      | error e => exact trivial
      | ok rs =>
        refine responseArraysAligned_ok ds rs ?_ hds_sorted
        intro r hr
        have hmem : r ∈ rankedResults (compareModels ds) := by
          rw [hcmp]
          exact hr
        obtain ⟨m, _, hfit⟩ := (compareModels_mem ds r).mp hmem
        rw [fitModel_ok_eq m ds r hfit]
        exact ⟨mkFitResult_fitted_length m ds, mkFitResult_residuals_length m ds⟩

theorem rankedResults_length (ds : ProfileDataset) :
    (rankedResults (compareModels ds)).length =
      (modelLibrary.filter fun m => decide (m.paramCount < ds.length)).length := by
  simp only [compareModels]
  by_cases he : (modelLibrary.filterMap fun m => (fitModel m ds).toOption).isEmpty
  · rw [if_pos he]
    have hnil := List.isEmpty_iff.mp he
    rw [filterMap_fit] at hnil
    have hfil := List.map_eq_nil_iff.mp hnil
    simp [rankedResults, hfil]
  · rw [if_neg he]
    simp only [rankedResults]
    rw [List.length_mergeSort, filterMap_fit, List.length_map]

theorem fitOrder_of_b (a b : FitResult) (h : fitOrderB a b = true) : fitOrder a b :=
  @of_decide_eq_true _ (Classical.propDecidable _) h

theorem b_of_fitOrder (a b : FitResult) (h : fitOrder a b) : fitOrderB a b = true :=
  @decide_eq_true _ (Classical.propDecidable _) h

theorem fitOrderB_trans (a b c : FitResult)
    (hab : fitOrderB a b = true) (hbc : fitOrderB b c = true) :
    fitOrderB a c = true := by
  have h1 := fitOrder_of_b a b hab
  have h2 := fitOrder_of_b b c hbc
  apply b_of_fitOrder
  rcases h1 with h1 | ⟨h1, h1s⟩ <;> rcases h2 with h2 | ⟨h2, h2s⟩
  · exact Or.inl (h1.trans h2)
  · exact Or.inl (h2 ▸ h1)
  · exact Or.inl (h1 ▸ h2)
  · exact Or.inr ⟨h1.trans h2, le_trans h1s h2s⟩

theorem fitOrderB_total (a b : FitResult) :
    (fitOrderB a b || fitOrderB b a) = true := by
  rw [Bool.or_eq_true]
  rcases lt_trichotomy a.chi2_reduced b.chi2_reduced with h | h | h
  · exact Or.inl (b_of_fitOrder a b (Or.inl h))
  · rcases le_total a.model_type b.model_type with hs | hs
    · exact Or.inl (b_of_fitOrder a b (Or.inr ⟨h, hs⟩))
    · exact Or.inr (b_of_fitOrder b a (Or.inr ⟨h.symm, hs⟩))
  · exact Or.inr (b_of_fitOrder b a (Or.inl h))

/-- C4 counterexample: a compare request over a three-sample profile
succeeds but produces a ranking of length 4 — the Claret model is excluded
by its degrees-of-freedom check — not length 5. -/
theorem compare_three_sample_count :
    (compareModels exampleDs3).isOk = true ∧
      (rankedResults (compareModels exampleDs3)).length = 4 := by
  have hlen : exampleDs3.length = 3 := by simp [exampleDs3]
  have hfilter : (modelLibrary.filter fun m =>
      decide (m.paramCount < exampleDs3.length)) =
      [linearSpec, quadraticSpec, squareRootSpec, logarithmicSpec] := by
    rw [hlen]
    simp [modelLibrary, List.filter, linearSpec, quadraticSpec, squareRootSpec,
      logarithmicSpec, claret4Spec]
  have hoks : (modelLibrary.filterMap fun m => (fitModel m exampleDs3).toOption) =
      [mkFitResult linearSpec exampleDs3, mkFitResult quadraticSpec exampleDs3,
        mkFitResult squareRootSpec exampleDs3, mkFitResult logarithmicSpec exampleDs3] := by
    rw [filterMap_fit, hfilter]
    rfl
  have hcmp : compareModels exampleDs3 =
      .ok ([mkFitResult linearSpec exampleDs3, mkFitResult quadraticSpec exampleDs3,
        mkFitResult squareRootSpec exampleDs3,
        mkFitResult logarithmicSpec exampleDs3].mergeSort fitOrderB) := by
    simp only [compareModels, hoks]
    rfl
  rw [hcmp]
  refine ⟨rfl, ?_⟩
  simp only [rankedResults]
  rw [List.length_mergeSort]
  rfl

/-- C4 (amended): a single-model request's results array has length exactly
1; a compare request's ranking contains exactly the models whose parameter
count is below the sample count — length 5 exactly when all five models fit
(N ≥ 5) — and the ranking is sorted ascending by `chi2_reduced` with ties
broken by lexical order of model id. -/
theorem results_count_and_ranking :
    (∀ (cfg : ExtractConfig) (g : List ℝ) (m : ModelSpec),
      singleResultCount (analyze cfg g (ModelSelection.single m))) ∧
    (∀ ds : ProfileDataset, (rankedResults (compareModels ds)).length =
      (modelLibrary.filter fun m => decide (m.paramCount < ds.length)).length) ∧
    (∀ ds : ProfileDataset, 5 ≤ ds.length →
      (rankedResults (compareModels ds)).length = 5) ∧
    (∀ ds : ProfileDataset, (rankedResults (compareModels ds)).Pairwise fitOrder) := by
  refine ⟨?_, fun ds => rankedResults_length ds, ?_, ?_⟩
  · intro cfg g m
    unfold analyze
    cases hex : extractProfile cfg g with
    | error e => exact trivial
    | ok ds =>
      show singleResultCount (Except.map (fun r => mkResponse ds [r]) (fitModel m ds))
      cases hfit : fitModel m ds with
      | error e => exact trivial
      | ok r => simp [singleResultCount, mkResponse, Except.map]
  · intro ds h5
    have hall : (modelLibrary.filter fun m => decide (m.paramCount < ds.length)) =
        modelLibrary := by
      rw [List.filter_eq_self]
      intro m hm
      simp only [modelLibrary, List.mem_cons, List.not_mem_nil, or_false] at hm
      rw [decide_eq_true_eq]
      rcases hm with rfl | rfl | rfl | rfl | rfl
      · simp only [linearSpec]
        omega
      · simp only [quadraticSpec]
        omega
      · simp only [squareRootSpec]
        omega
      · simp only [logarithmicSpec]
        omega
      · simp only [claret4Spec]
        omega
    rw [rankedResults_length, hall]
    rfl
  · intro ds
    simp only [compareModels]
    by_cases he : (modelLibrary.filterMap fun m => (fitModel m ds).toOption).isEmpty
    · rw [if_pos he]
      simp [rankedResults]
    · rw [if_neg he]
      simp only [rankedResults]
      have hs := List.sorted_mergeSort fitOrderB_trans fitOrderB_total
        (modelLibrary.filterMap fun m => (fitModel m ds).toOption)
      exact hs.imp fun h => fitOrder_of_b _ _ h

/-- Witness for C4's amended length clause at a concrete five-sample
profile. -/
theorem results_count_and_ranking_witness :
    5 ≤ exampleDs5.length ∧ (rankedResults (compareModels exampleDs5)).length = 5 := by
  have h : 5 ≤ exampleDs5.length := by simp [exampleDs5]
  exact ⟨h, results_count_and_ranking.2.2.1 exampleDs5 h⟩

/-- C1 counterexample: the client's model cards send the id `claret` in the
`model_type` request field; it is not the compare selector and it is not
among the five §4.2 ids, whose fifth id is `claret4`. -/
theorem claret_id_not_in_spec42 :
    clientModelIds.contains (modelTypeField "claret") = true ∧
      (modelTypeField "claret" == "compare") = false ∧
      spec42Ids.contains (modelTypeField "claret") = false := by
  refine ⟨?_, ?_, ?_⟩ <;> decide

/-- C1 (amended): the selectable client ids other than the compare selector
are `linear`, `quadratic`, `square-root`, `logarithmic` and `claret` — the
§4.2 list with `claret` in place of `claret4` — the client forwards the
selected id verbatim as `model_type`, and every result `model_type` the
engine emits is one of the five §4.2 ids. -/
theorem model_type_ids_amended :
    clientModelIds.erase "compare" =
      ["linear", "quadratic", "square-root", "logarithmic", "claret"] ∧
    (∀ s : String, modelTypeField s = s) ∧
    modelLibrary.map ModelSpec.id = spec42Ids ∧
    (∀ (cfg : ExtractConfig) (g : List ℝ) (m : ModelSpec), m ∈ modelLibrary →
      resultsModelTypesValid (analyze cfg g (ModelSelection.single m))) ∧
    (∀ (cfg : ExtractConfig) (g : List ℝ),
      resultsModelTypesValid (analyze cfg g ModelSelection.compare)) := by
  refine ⟨by decide, fun s => rfl, rfl, ?_, ?_⟩
  · intro cfg g m hm
    unfold analyze
    cases hex : extractProfile cfg g with
    | error e => exact trivial
    | ok ds =>
      show resultsModelTypesValid (Except.map (fun r => mkResponse ds [r]) (fitModel m ds))
      cases hfit : fitModel m ds with
      | error e => exact trivial
      | ok r =>
        have hr := fitModel_ok_eq m ds r hfit
        show resultsModelTypesValid (.ok (mkResponse ds [r]))
        simp only [resultsModelTypesValid, mkResponse, List.Forall]
        rw [hr]
        show (mkFitResult m ds).model_type ∈ spec42Ids
        have : (mkFitResult m ds).model_type = m.id := rfl
        rw [this]
        have hmem : m.id ∈ modelLibrary.map ModelSpec.id := List.mem_map_of_mem _ hm
        rwa [show modelLibrary.map ModelSpec.id = spec42Ids from rfl] at hmem
  · intro cfg g
    unfold analyze
    cases hex : extractProfile cfg g with
    | error e => exact trivial
    | ok ds =>
      show resultsModelTypesValid (Except.map (fun rs => mkResponse ds rs) (compareModels ds))
      cases hcmp : compareModels ds with
      | error e => exact trivial
      | ok rs =>
        show resultsModelTypesValid (.ok (mkResponse ds rs))
        simp only [resultsModelTypesValid, mkResponse]
        rw [List.forall_iff_forall_mem]
        intro r hr
        have hmem : r ∈ rankedResults (compareModels ds) := by
          rw [hcmp]
          exact hr
        obtain ⟨m, hm, hfit⟩ := (compareModels_mem ds r).mp hmem
        rw [fitModel_ok_eq m ds r hfit]
        show (mkFitResult m ds).model_type ∈ spec42Ids
        have : (mkFitResult m ds).model_type = m.id := rfl
        rw [this]
        have hmm : m.id ∈ modelLibrary.map ModelSpec.id := List.mem_map_of_mem _ hm
        rwa [show modelLibrary.map ModelSpec.id = spec42Ids from rfl] at hmm

/-- Witness for C1's amended single-model clause at the linear model. -/
theorem model_type_ids_amended_witness :
    linearSpec ∈ modelLibrary ∧
      resultsModelTypesValid
        (analyze exampleCfg exampleGrid (ModelSelection.single linearSpec)) := by
  have hm : linearSpec ∈ modelLibrary := by simp [modelLibrary]
  exact ⟨hm, model_type_ids_amended.2.2.2.1 exampleCfg exampleGrid linearSpec hm⟩

/-- C10: the drift-scan reconstruction in `Graphs.jsx` doubles the array
lengths, is mirror-symmetric — `x[k] = -x[2N-1-k]` and `y[k] = y[2N-1-k]` —
its positive half is `r = sqrt(1 - mu²)` of the μ grid, and that map inverts
the extractor's `mu = sqrt(1 - r²)` on `r ∈ [0,1]`. -/
theorem drift_scan_mirror_symmetry (mu inorm : List ℝ) (N : ℕ)
    (hm : mu.length = N) (hi : inorm.length = N) :
    (r_full mu).length = 2 * N ∧
    (i_full inorm).length = 2 * N ∧
    (∀ k, k < 2 * N →
      (r_full mu).getD k 0 = -((r_full mu).getD (2 * N - 1 - k) 0)) ∧
    (∀ k, k < 2 * N →
      (i_full inorm).getD k 0 = (i_full inorm).getD (2 * N - 1 - k) 0) ∧
    (r_full mu).drop N = mu.map (fun m => Real.sqrt (1 - m * m)) ∧
    (∀ r : ℝ, 0 ≤ r → r ≤ 1 → Real.sqrt (1 - muOfR r * muOfR r) = r) := by
  have hrn : (r_norm mu).length = N := by simp [r_norm, hm]
  have hA : ((r_norm mu).reverse.map fun r => -r).length = N := by simp [hrn]
  have hB : (inorm.reverse).length = N := by simp [hi]
  refine ⟨?_, ?_, ?_, ?_, ?_, ?_⟩
  · simp only [r_full, List.length_append, hA, hrn]
    omega
  · simp only [i_full, List.length_append, hB, hi]
    omega
  · intro k hk
    unfold r_full
    by_cases hkN : k < N
    · have hj : N ≤ 2 * N - 1 - k := by omega
      rw [List.getD_append _ _ _ _ (by omega), List.getD_append_right _ _ _ _ (by omega)]
      rw [getD_map_neg, getD_reverse_of_lt _ _ (by omega)]
      rw [hrn, hA]
      have : 2 * N - 1 - k - N = N - 1 - k := by omega
      rw [this]
    · have hj : 2 * N - 1 - k < N := by omega
      rw [List.getD_append_right _ _ _ _ (by omega), List.getD_append _ _ _ _ (by omega)]
      rw [getD_map_neg, getD_reverse_of_lt _ _ (by omega)]
      rw [hrn, hA, neg_neg]
      have : N - 1 - (2 * N - 1 - k) = k - N := by omega
      rw [this]
  · intro k hk
    unfold i_full
    by_cases hkN : k < N
    · rw [List.getD_append _ _ _ _ (by omega), List.getD_append_right _ _ _ _ (by omega)]
      rw [getD_reverse_of_lt _ _ (by omega), hi, hB]
      have : 2 * N - 1 - k - N = N - 1 - k := by omega
      rw [this]
    · rw [List.getD_append_right _ _ _ _ (by omega), List.getD_append _ _ _ _ (by omega)]
      rw [getD_reverse_of_lt _ _ (by omega), hi, hB]
      have : N - 1 - (2 * N - 1 - k) = k - N := by omega
      rw [this]
  · unfold r_full
    rw [← hA, List.drop_left]
    rfl
  · intro r h0 h1
    have hr2 : (0 : ℝ) ≤ 1 - r ^ 2 := by nlinarith
    have hsq : muOfR r * muOfR r = 1 - r ^ 2 := Real.mul_self_sqrt hr2
    rw [hsq, show (1 : ℝ) - (1 - r ^ 2) = r ^ 2 by ring, Real.sqrt_sq h0]

/-- Witness for C10 at a concrete two-sample μ grid. -/
theorem drift_scan_mirror_symmetry_witness :
    ([(0 : ℝ), 1].length = 2) ∧ (r_full [(0 : ℝ), 1]).length = 2 * 2 :=
  ⟨by simp, (drift_scan_mirror_symmetry [(0 : ℝ), 1] [(1 : ℝ), 0] 2
    (by simp) (by simp)).1⟩
